import Mathlib

/-!
Shallow embedding of `src/node_server/verify_sig.py` (RosiePi Node Server).

The Python module defines two classes:
* `PhysaCIConfig` — reads an INI configuration (via `configparser.ConfigParser`
  with `default_section='local'`) from a static path, optionally attempting a
  second read when the config declares an alternate location, and exposes the
  `node_sig_key` option of the `node_server` section.
* `VerifySig.verify_signature` — checks the `Authorization: Signature ...`
  header of a request: scheme prefix, `keyID` against the local hostname,
  `algorithm` against `hmac-sha256`, then recomputes an HMAC-SHA256 over a
  canonical string and compares it (via `hmac.compare_digest`) against the
  base64-decoded `signature` parameter.

Strings are modelled as Lean `String` (Python `str` by code points), byte
strings as `List Nat`.  The HMAC-SHA256 digest computation itself is a
parameter (`hm : String → String → List Nat`, key and message to digest
bytes): no claim settled here depends on the internals of SHA-256, only on
which value the code passes to `hmac.compare_digest` — namely the HMAC
*object*, never its finalized digest.  Exceptional control flow of the
Python code (KeyError, binascii.Error, configparser errors, TypeError) is
made explicit in the `Outcome` / `Except` results.
-/

namespace NodeServer

/-- Python exceptions that the code under verification can raise. -/
inductive PyErr
  | typeError
  | keyError
  | binasciiError
  | noSectionError
  | noOptionError
  deriving DecidableEq, Repr

/-- The distinct rejection exits of `verify_signature` (each `return False`
site logs a distinct warning; the constructor records which site fired). -/
inductive Reason
  | notHttpSignature
  | badKeyID
  | badAlgorithm
  | sigMismatch
  deriving DecidableEq, Repr

/-- Result of a call to `verify_signature`: normal return `True`, normal
return `False` (with the logged reason), or an uncaught Python exception. -/
inductive Outcome
  | accept
  | reject (r : Reason)
  | raises (e : PyErr)
  deriving DecidableEq, Repr

/-- Python `str.startswith`. -/
def pyStartsWith (s pre : String) : Bool :=
  pre.data.isPrefixOf s.data

/-- Python `s[n:]` (slicing by code points). -/
def pyDrop (s : String) (n : Nat) : String :=
  String.mk (s.data.drop n)

/-- Python `str.lower` (the methods used here are plain ASCII). -/
def pyLower (s : String) : String :=
  String.map Char.toLower s

/-- Python `str.split(',')` on the character list: keeps empty fields,
`''.split(',') == ['']`. -/
def pySplitCommaAux : List Char → List (List Char)
  | [] => [[]]
  | c :: rest =>
    match pySplitCommaAux rest with
    | [] => [[]]
    | h :: t => if c = ',' then [] :: h :: t else (c :: h) :: t

/-- Python `str.split(',')`. -/
def pySplitComma (s : String) : List String :=
  (pySplitCommaAux s.data).map String.mk

/-- Python `dict` lookup (`.get`): the binding written last wins.  Dicts are
represented as association lists to which assignments are appended, so the
lookup reads the last matching entry. -/
def dictGet (d : List (String × String)) (k : String) : Option String :=
  List.lookup k d.reverse

/-- Largest `i < n` with `p i = true`. -/
def findMaxIdx (p : Nat → Bool) : Nat → Option Nat
  | 0 => none
  | n + 1 => if p n then some n else findMaxIdx p n

/-- Python regex `.` (which does not match a newline). -/
def dotOk (c : Char) : Bool := c != '\n'

/-- The continuation `(.+)"` of the regex `^(.+)\="(.+)"`, matched against
the text after `="` : the greedy group takes everything up to the last `"`
(backtracking over newline constraints), at least one character. -/
def matchValue (t : List Char) : Option (List Char) :=
  match findMaxIdx
      (fun j => decide (1 ≤ j) && (t.get? j == some '"') && (t.take j).all dotOk)
      t.length with
  | some j => some (t.take j)
  | none => none

/-- Whether the regex `^(.+)\="(.+)"` can place the end of its first (greedy)
group just before position `i` of `cs`: `cs.take i` is a nonempty run of
non-newline characters followed by `="`, and the rest of the pattern matches
what follows. -/
def elemPred (cs : List Char) (i : Nat) : Bool :=
  decide (1 ≤ i) && (cs.get? i == some '=') && (cs.get? (i + 1) == some '"') &&
    (cs.take i).all dotOk && (matchValue (cs.drop (i + 2))).isSome

/-- `re.search(r'^(.+)\="(.+)"', element)`, returning the two groups:
the first group is greedy (maximal `i` for which the rest still matches),
then the second group is greedy in the remainder. -/
def matchElement (element : String) : Option (String × String) :=
  match findMaxIdx (elemPred element.data) element.data.length with
  | some i =>
    match matchValue (element.data.drop (i + 2)) with
    | some v => some (String.mk (element.data.take i), String.mk v)
    | none => none
  | none => none

/-- `VerifySig.__parse_sig_elements`: for each comma-separated element, match
the regex; non-matching elements are skipped; matches are assigned into the
dict (`sig_elements[key] = value`, later assignments shadowing earlier ones
under `dictGet`). -/
def parse_sig_elements (sig : List String) : List (String × String) :=
  sig.foldl
    (fun d element =>
      match matchElement element with
      | some kv => d ++ [kv]
      | none => d)
    []

/-- Index of a character in the base64 alphabet. -/
def b64ValAux : List Char → Nat → Char → Option Nat
  | [], _, _ => none
  | a :: rest, i, c => if a = c then some i else b64ValAux rest (i + 1) c

/-- The standard base64 alphabet value of a character. -/
def b64Val (c : Char) : Option Nat :=
  b64ValAux "ABCDEFGHIJKLMNOPQRSTUVWXYZabcdefghijklmnopqrstuvwxyz0123456789+/".data 0 c

/-- Regrouping base64 sextets into bytes (trailing group of 2 sextets gives
one byte, of 3 gives two). -/
def b64chunks : List Nat → List Nat
  | a :: b :: c :: d :: rest =>
    (a * 4 + b / 16) :: ((b % 16) * 16 + c / 4) :: ((c % 4) * 64 + d) :: b64chunks rest
  | [a, b] => [a * 4 + b / 16]
  | [a, b, c] => [a * 4 + b / 16, (b % 16) * 16 + c / 4]
  | _ => []

/-- `base64.b64decode` in its default lenient mode: characters outside the
alphabet are discarded, then the data length must fit the padding
(`binascii.Error` otherwise — `Except.error`).  Modelled for inputs whose
padding, if any, trails the data, which covers every use in this file. -/
def b64decode (s : String) : Except Unit (List Nat) :=
  let kept := s.data.filter (fun c => (b64Val c).isSome || c == '=')
  let dat := kept.takeWhile (fun c => c != '=')
  let pads := (kept.filter (fun c => c == '=')).length
  if dat.length % 4 == 1 then Except.error ()
  else if dat.length % 4 != 0 && decide (dat.length % 4 + pads < 4) then Except.error ()
  else Except.ok (b64chunks (dat.map (fun c => (b64Val c).getD 0)))

/-- A Python value sitting in an argument slot of `hmac.compare_digest`:
either a bytes object, or the (un-finalized) `hmac.HMAC` object
`local_sig_hashed` that `verify_signature` builds. -/
inductive PyBuf
  | hmacCtx (digest : List Nat)
  | bytes (b : List Nat)
  deriving DecidableEq, Repr

/-- `hmac.compare_digest`: CPython requires both arguments to be bytes-like
(or both ASCII `str`); an `hmac.HMAC` object is neither, so passing one
raises `TypeError`. -/
def compare_digest : PyBuf → PyBuf → Except PyErr Bool
  | PyBuf.bytes a, PyBuf.bytes b => Except.ok (a == b)
  | _, _ => Except.error PyErr.typeError

/-- Parsed content of an INI file / state of a `ConfigParser` whose default
section is `local`: the default-section options plus the named sections. -/
structure IniData where
  defaults : List (String × String)
  sections : List (String × List (String × String))
  deriving DecidableEq, Repr

/-- A fresh `ConfigParser(allow_no_value=True, default_section='local')`. -/
def emptyIni : IniData := ⟨[], []⟩

/-- Set one option, overwriting an existing binding. -/
def dictSet (d : List (String × String)) (k v : String) : List (String × String) :=
  if d.any (fun p => p.1 == k) then d.map (fun p => if p.1 == k then (k, v) else p)
  else d ++ [(k, v)]

/-- Merge a batch of options into existing ones, last-read value winning. -/
def mergeOptions (old upd : List (String × String)) : List (String × String) :=
  upd.foldl (fun d p => dictSet d p.1 p.2) old

/-- Merge sections of a newly read file into the parser state. -/
def mergeSections (old upd : List (String × List (String × String))) :
    List (String × List (String × String)) :=
  upd.foldl
    (fun ss p =>
      match List.lookup p.1 ss with
      | some opts => ss.map (fun q => if q.1 == p.1 then (p.1, mergeOptions opts p.2) else q)
      | none => ss ++ [p])
    old

/-- `ConfigParser.read` of one successfully parsed file, merging into the
current state (last-read value wins). -/
def configRead (cfg f : IniData) : IniData :=
  ⟨mergeOptions cfg.defaults f.defaults, mergeSections cfg.sections f.sections⟩

/-- `ConfigParser.get(section, option)` (no fallback): the default section
`local` is consulted for options missing from a named section; a missing
named section raises `NoSectionError`, a missing option `NoOptionError`. -/
def config_get (cfg : IniData) (sec opt : String) : Except PyErr String :=
  if sec = "local" then
    match List.lookup opt cfg.defaults with
    | some v => Except.ok v
    | none => Except.error PyErr.noOptionError
  else
    match List.lookup sec cfg.sections with
    | none => Except.error PyErr.noSectionError
    | some opts =>
      match List.lookup opt opts with
      | some v => Except.ok v
      | none =>
        match List.lookup opt cfg.defaults with
        | some v => Except.ok v
        | none => Except.error PyErr.noOptionError

/-- The `PhysaCIConfig.node_sig_key` property:
`self.config.get('node_server', 'node_sig_key')`. -/
def node_sig_key (cfg : IniData) : Except PyErr String :=
  config_get cfg "node_server" "node_sig_key"

/-- `_STATIC_CONFIG_FILE`. -/
def staticConfigFile : String := "/etc/opt/physaci_sub/conf.ini"

/-- The Python value of `self.config_location`: a `str` when the
`config_file` option is declared, the fallback `pathlib.Path` object
`_STATIC_CONFIG_FILE` when it is not. -/
inductive StrOrPath
  | str (s : String)
  | path (p : String)
  deriving DecidableEq, Repr

/-- Python `==` between the possible `config_location` values and a `Path`:
a `str` never equals a `Path`, two `Path`s compare by their text. -/
def pyEqSP : StrOrPath → StrOrPath → Bool
  | StrOrPath.str a, StrOrPath.str b => a == b
  | StrOrPath.path a, StrOrPath.path b => a == b
  | _, _ => false

/-- `self.config.get('local', 'config_file', fallback=_STATIC_CONFIG_FILE)`. -/
def config_file_location (cfg : IniData) : StrOrPath :=
  match List.lookup "config_file" cfg.defaults with
  | some v => StrOrPath.str v
  | none => StrOrPath.path staticConfigFile

/-- `PhysaCIConfig.__init__`, over an abstract filesystem `fs` (path to the
parsed INI content of a readable file, `none` when `ConfigParser.read`
reads nothing) and the `pathlib.Path.resolve` function of the host.
If the first read fails, a warning is logged and the config stays empty.
Otherwise, when `config_location != _STATIC_CONFIG_FILE.resolve()` the code
calls `self.config.read([...], default_section='local')` — but
`ConfigParser.read` has no `default_section` parameter, so that call raises
`TypeError` before reading anything. -/
def PhysaCIConfig_init (fs : String → Option IniData) (resolve : String → String) :
    Except PyErr IniData :=
  match fs staticConfigFile with
  | none => Except.ok emptyIni
  | some f =>
    let cfg := configRead emptyIni f
    let config_location := config_file_location cfg
    if pyEqSP config_location (StrOrPath.path (resolve staticConfigFile)) then Except.ok cfg
    else Except.error PyErr.typeError

/-- The request descriptor consumed by `verify_signature`: method, path and
headers (headers modelled as an association list consulted by exact name). -/
structure Request where
  method : String
  path : String
  headers : List (String × String)
  deriving DecidableEq, Repr

/-- `request.headers.get(k, d)`. -/
def headersGet (r : Request) (k d : String) : String :=
  (List.lookup k r.headers).getD d

/-- The string `sig_string` of `verify_signature`:
`(request-target) <method-lowercase> <path>\nhost: <Host>\ndate: <Date>`. -/
def buildSigString (r : Request) : String :=
  "(request-target) " ++ pyLower r.method ++ " " ++ r.path ++ "\n" ++
    "host: " ++ headersGet r "Host" "" ++ "\n" ++
    "date: " ++ headersGet r "Date" ""

/-- `request.headers.get('Authorization', '')`. -/
def requestSigOf (r : Request) : String :=
  headersGet r "Authorization" ""

/-- `self.__parse_sig_elements(request_sig[10:].split(','))`. -/
def sigElementsOf (r : Request) : List (String × String) :=
  parse_sig_elements (pySplitComma (pyDrop (requestSigOf r) 10))

/-- `VerifySig.verify_signature`, parameterized by the HMAC-SHA256 digest
function `hm` (signing key and message strings to digest bytes), the local
hostname (`socket.gethostname()`), and the loaded configuration.  Mirrors
the Python control flow line by line; the value passed as first argument to
`hmac.compare_digest` is the HMAC *object* (`PyBuf.hmacCtx`), exactly as in
the source, which never calls `.digest()` on it. -/
def verify_signature (hm : String → String → List Nat) (hostname : String)
    (cfg : IniData) (request : Request) : Outcome :=
  let request_sig := requestSigOf request
  if ¬ pyStartsWith request_sig "Signature" then Outcome.reject Reason.notHttpSignature
  else
    let sig_elements := sigElementsOf request
    if dictGet sig_elements "keyID" ≠ some hostname then Outcome.reject Reason.badKeyID
    else if dictGet sig_elements "algorithm" ≠ some "hmac-sha256" then
      Outcome.reject Reason.badAlgorithm
    else
      match node_sig_key cfg with
      | Except.error e => Outcome.raises e
      | Except.ok key =>
        let sig_string := buildSigString request
        let local_sig_hashed := PyBuf.hmacCtx (hm key sig_string)
        match dictGet sig_elements "signature" with
        | none => Outcome.raises PyErr.keyError
        | some sigparam =>
          match b64decode sigparam with
          | Except.error _ => Outcome.raises PyErr.binasciiError
          | Except.ok sig_bytes =>
            match compare_digest local_sig_hashed (PyBuf.bytes sig_bytes) with
            | Except.error e => Outcome.raises e
            | Except.ok true => Outcome.accept
            | Except.ok false => Outcome.reject Reason.sigMismatch

/-! ### Concrete instances used to evaluate the model -/

/-- A concrete HMAC-SHA256 stand-in: every digest is the 32 zero bytes. -/
def hm0 : String → String → List Nat := fun _ _ => List.replicate 32 0

/-- A configuration carrying a signing key. -/
def cfgOK : IniData := ⟨[], [("node_server", [("node_sig_key", "s3cr3t")])]⟩

/-- Base64 of 32 zero bytes (the digest `hm0` produces). -/
def sig44 : String := String.mk (List.replicate 43 'A') ++ "="

/-- An `Authorization` header whose `signature` parameter base64-encodes the
digest `hm0` yields, i.e. a correctly signed header relative to `hm0`. -/
def authValid : String :=
  "Signature keyID=\"node1\",algorithm=\"hmac-sha256\",signature=\"" ++ sig44 ++ "\""

/-- A correctly signed request (relative to `hm0`) for host `node1`. -/
def reqValid : Request :=
  ⟨"GET", "/status",
    [("Authorization", authValid), ("Host", "node1"),
     ("Date", "Tue, 01 Jan 2030 00:00:00 GMT")]⟩

/-- Valid `keyID` and `algorithm`, but no `signature` parameter at all. -/
def reqNoSigParam : Request :=
  ⟨"GET", "/", [("Authorization", "Signature keyID=\"node1\",algorithm=\"hmac-sha256\"")]⟩

/-- Valid `keyID` and `algorithm`, `signature` parameter that is not valid
base64 (`'a'` alone is one data character, which no padding can fix). -/
def reqBadB64 : Request :=
  ⟨"GET", "/",
    [("Authorization",
      "Signature keyID=\"node1\",algorithm=\"hmac-sha256\",signature=\"a\"")]⟩

/-- An `Authorization` value that starts with `Signature` but NOT with
`Signature` followed by a separator: the tenth character is `Z`. -/
def authNoSep : String :=
  "SignatureZkeyID=\"node1\",algorithm=\"hmac-sha256\",signature=\"AAAA\""

/-- Request carrying `authNoSep`. -/
def reqNoSep : Request := ⟨"GET", "/status", [("Authorization", authNoSep)]⟩

/-- A request with no `Authorization` header at all. -/
def reqNoAuth : Request := ⟨"GET", "/", []⟩

/-- Signature header with `keyID` absent. -/
def reqNoKeyID : Request :=
  ⟨"GET", "/", [("Authorization", "Signature algorithm=\"hmac-sha256\",signature=\"AAAA\"")]⟩

/-- Signature header with `algorithm` absent. -/
def reqNoAlgorithm : Request :=
  ⟨"GET", "/", [("Authorization", "Signature keyID=\"node1\",signature=\"AAAA\"")]⟩

/-- A well-formed signed request with `signature="AAAA"` (valid base64 of
three zero bytes). -/
def reqAAAA : Request :=
  ⟨"POST", "/job",
    [("Authorization",
      "Signature keyID=\"node1\",algorithm=\"hmac-sha256\",signature=\"AAAA\"")]⟩

/-- A filesystem on which the static config file is readable and declares
`config_file` equal (as text) to the static path itself. -/
def fsSameLocation : String → Option IniData := fun p =>
  if p = staticConfigFile then
    some ⟨[("config_file", "/etc/opt/physaci_sub/conf.ini")],
          [("node_server", [("node_sig_key", "s3cr3t")])]⟩
  else none

/-- A filesystem on which no config file is readable. -/
def fsUnreadable : String → Option IniData := fun _ => none

/-! ### Definitions following the spec's words, for refinement comparison -/

/-- The canonical string exactly as the spec (and claim C8) words it:
`(request-target) ` + lower-cased method + space + path, newline,
`host: ` + Host value (empty if absent), newline, `date: ` + Date value
(empty if absent). -/
def specCanonicalString (method path : String) (hostHdr dateHdr : Option String) : String :=
  "(request-target) " ++ pyLower method ++ " " ++ path ++ "\n" ++
    "host: " ++ hostHdr.getD "" ++ "\n" ++
    "date: " ++ dateHdr.getD ""

/-- The element pattern exactly as claim C7 words it: a key of one or more
NON-`=` characters, then `="`, then a value of one or more characters up to
the (greedy, last) closing quote. -/
def specMatchElement (element : String) : Option (String × String) :=
  let cs := element.data
  let k := cs.takeWhile (fun c => c != '=')
  if k.isEmpty then none
  else
    match cs.drop k.length with
    | '=' :: '"' :: t =>
      (match findMaxIdx (fun j => decide (1 ≤ j) && (t.get? j == some '"')) t.length with
       | some j => some (String.mk k, String.mk (t.take j))
       | none => none)
    | _ => none

/-! ### Helper lemmas -/

theorem findMaxIdx_none_forall {p : Nat → Bool} :
    ∀ {n : Nat}, findMaxIdx p n = none → ∀ i, i < n → p i = false := by
  intro n
  induction n with
  | zero => intro _ i hi; omega
  | succ m ih =>
    intro h i hi
    unfold findMaxIdx at h
    split at h
    · exact absurd h (by simp)
    · rcases Nat.lt_succ_iff_lt_or_eq.mp hi with hlt | heq
      · exact ih h i hlt
      · subst heq
        exact Bool.not_eq_true _ ▸ (by simpa using ‹¬ p i = true›)

theorem findMaxIdx_some_spec {p : Nat → Bool} :
    ∀ {n i : Nat}, findMaxIdx p n = some i → p i = true ∧ i < n := by
  intro n
  induction n with
  | zero => intro i h; exact absurd h (by simp [findMaxIdx])
  | succ m ih =>
    intro i h
    unfold findMaxIdx at h
    split at h
    · cases h
      exact ⟨by assumption, Nat.lt_succ_self m⟩
    · obtain ⟨h1, h2⟩ := ih h
      exact ⟨h1, Nat.lt_succ_of_lt h2⟩

theorem get?_append_add {α : Type} (k l : List α) (j : Nat) :
    (k ++ l).get? (k.length + j) = l.get? j := by
  induction k with
  | nil => simp
  | cons a t ih =>
    have h : t.length + 1 + j = (t.length + j) + 1 := by omega
    simp only [List.cons_append, List.length_cons, h, List.get?_cons_succ]
    exact ih

theorem drop_append_add {α : Type} (k l : List α) (j : Nat) :
    (k ++ l).drop (k.length + j) = l.drop j := by
  induction k with
  | nil => simp
  | cons a t ih =>
    have h : t.length + 1 + j = (t.length + j) + 1 := by omega
    simp only [List.cons_append, List.length_cons, h, List.drop_succ_cons]
    exact ih

theorem take_append_self {α : Type} (k l : List α) : (k ++ l).take k.length = k := by
  induction k with
  | nil => simp
  | cons a t ih => simp [ih]

theorem drop_cons_of_get? {α : Type} {l : List α} {i : Nat} {a : α}
    (h : l.get? i = some a) : l.drop i = a :: l.drop (i + 1) := by
  induction l generalizing i with
  | nil => simp at h
  | cons b t ih =>
    cases i with
    | zero => simp at h; subst h; simp
    | succ m =>
      simp only [List.get?_cons_succ] at h
      simpa using ih h

theorem matchValue_eq_some {t v : List Char} (h : matchValue t = some v) :
    v ≠ [] ∧ v.all dotOk = true ∧ ∃ rest, t = v ++ '"' :: rest := by
  unfold matchValue at h
  rcases hf : findMaxIdx
      (fun j => decide (1 ≤ j) && (t.get? j == some '"') && (t.take j).all dotOk)
      t.length with _ | j
  · rw [hf] at h; cases h
  · rw [hf] at h
    cases h
    obtain ⟨hp, hj⟩ := findMaxIdx_some_spec hf
    simp only [Bool.and_eq_true, decide_eq_true_eq, beq_iff_eq] at hp
    obtain ⟨⟨h1, h2⟩, h3⟩ := hp
    refine ⟨?_, h3, t.drop (j + 1), ?_⟩
    · intro hnil
      have : (t.take j).length = 0 := by rw [hnil]; rfl
      rw [List.length_take] at this
      omega
    · conv_lhs => rw [← List.take_append_drop j t]
      rw [drop_cons_of_get? h2]

theorem matchValue_isSome {v rest : List Char} (hv : v ≠ [])
    (hdots : v.all dotOk = true) :
    (matchValue (v ++ '"' :: rest)).isSome = true := by
  unfold matchValue
  rcases hf : findMaxIdx
      (fun j => decide (1 ≤ j) && ((v ++ '"' :: rest).get? j == some '"') &&
        ((v ++ '"' :: rest).take j).all dotOk)
      (v ++ '"' :: rest).length with _ | j
  · exfalso
    have hlt : v.length < (v ++ '"' :: rest).length := by
      simp [List.length_append]
    have hfalse := findMaxIdx_none_forall hf v.length hlt
    have hget : (v ++ '"' :: rest).get? v.length = some '"' := by
      have := get?_append_add v ('"' :: rest) 0
      simpa using this
    have htake : (v ++ '"' :: rest).take v.length = v := take_append_self v ('"' :: rest)
    rw [hget, htake] at hfalse
    simp [hdots, List.length_pos.mpr hv] at hfalse
    exact hv hfalse
  · simp

theorem matchElement_eq_some {e k v : String} (h : matchElement e = some (k, v)) :
    k.data ≠ [] ∧ v.data ≠ [] ∧ k.data.all dotOk = true ∧ v.data.all dotOk = true ∧
      ∃ rest, e.data = k.data ++ ('=' :: '"' :: (v.data ++ '"' :: rest)) := by
  unfold matchElement at h
  rcases hf : findMaxIdx (elemPred e.data) e.data.length with _ | i
  · rw [hf] at h; cases h
  · rw [hf] at h
    dsimp only at h
    rcases hv : matchValue (e.data.drop (i + 2)) with _ | v'
    · rw [hv] at h; cases h
    · rw [hv] at h
      dsimp only at h
      cases h
      obtain ⟨hp, hi⟩ := findMaxIdx_some_spec hf
      unfold elemPred at hp
      simp only [Bool.and_eq_true, decide_eq_true_eq, beq_iff_eq] at hp
      obtain ⟨⟨⟨⟨h1, h2⟩, h3⟩, h4⟩, _⟩ := hp
      obtain ⟨hvne, hvdots, rest, hrest⟩ := matchValue_eq_some hv
      refine ⟨?_, hvne, h4, hvdots, rest, ?_⟩
      · intro hnil
        have hlen : (e.data.take i).length = 0 := by
          simpa using congrArg List.length hnil
        rw [List.length_take] at hlen
        omega
      · have h5 : e.data.drop (i + 1) = '"' :: (v' ++ '"' :: rest) := by
          have hstep := drop_cons_of_get? h3
          have harith : i + 1 + 1 = i + 2 := by omega
          rw [harith, hrest] at hstep
          exact hstep
        conv_lhs => rw [← List.take_append_drop i e.data]
        rw [drop_cons_of_get? h2, h5]

theorem matchElement_eq_none {e : String} (h : matchElement e = none) :
    ∀ k v rest : List Char, k ≠ [] → v ≠ [] → k.all dotOk = true → v.all dotOk = true →
      e.data ≠ k ++ ('=' :: '"' :: (v ++ '"' :: rest)) := by
  intro k v rest hk hv hkdots hvdots heq
  unfold matchElement at h
  rcases hf : findMaxIdx (elemPred e.data) e.data.length with _ | i
  · have hlt : k.length < e.data.length := by
      rw [heq]
      simp [List.length_append]
    have hfalse := findMaxIdx_none_forall hf k.length hlt
    unfold elemPred at hfalse
    have hget1 : e.data.get? k.length = some '=' := by
      rw [heq]
      have := get?_append_add k ('=' :: '"' :: (v ++ '"' :: rest)) 0
      simpa using this
    have hget2 : e.data.get? (k.length + 1) = some '"' := by
      rw [heq]
      have := get?_append_add k ('=' :: '"' :: (v ++ '"' :: rest)) 1
      simpa using this
    have htake : e.data.take k.length = k := by
      rw [heq]; exact take_append_self k ('=' :: '"' :: (v ++ '"' :: rest))
    have hdrop : e.data.drop (k.length + 2) = v ++ '"' :: rest := by
      rw [heq]
      have hd := drop_append_add k ('=' :: '"' :: (v ++ '"' :: rest)) 2
      simp only [List.drop_succ_cons, List.drop_zero] at hd
      exact hd
    rw [hget1, hget2, htake, hdrop] at hfalse
    simp [hkdots, List.length_pos.mpr hk, matchValue_isSome hv hvdots] at hfalse
    exact hk hfalse
  · rw [hf] at h
    dsimp only at h
    obtain ⟨hp, _⟩ := findMaxIdx_some_spec hf
    unfold elemPred at hp
    simp only [Bool.and_eq_true] at hp
    rcases hval : matchValue (e.data.drop (i + 2)) with _ | v'
    · rw [hval] at hp
      simp at hp
    · rw [hval] at h
      dsimp only at h
      cases h

theorem parse_append_single (es : List String) (e : String) :
    parse_sig_elements (es ++ [e]) =
      (match matchElement e with
        | some kv => parse_sig_elements es ++ [kv]
        | none => parse_sig_elements es) := by
  unfold parse_sig_elements
  rw [List.foldl_append]
  rfl

theorem dictGet_append_last (d : List (String × String)) (k v : String) :
    dictGet (d ++ [(k, v)]) k = some v := by
  simp [dictGet, List.reverse_append, List.lookup]

theorem verify_ne_accept (hm : String → String → List Nat) (hostname : String)
    (cfg : IniData) (r : Request) :
    verify_signature hm hostname cfg r ≠ Outcome.accept := by
  unfold verify_signature
  repeat' split <;> try simp_all [compare_digest]

theorem verify_reaches_compare (hm : String → String → List Nat) (hostname : String)
    (cfg : IniData) (r : Request) (key s : String) (bs : List Nat)
    (hsw : pyStartsWith (requestSigOf r) "Signature" = true)
    (hkid : dictGet (sigElementsOf r) "keyID" = some hostname)
    (halg : dictGet (sigElementsOf r) "algorithm" = some "hmac-sha256")
    (hks : node_sig_key cfg = Except.ok key)
    (hsig : dictGet (sigElementsOf r) "signature" = some s)
    (hdec : b64decode s = Except.ok bs) :
    verify_signature hm hostname cfg r = Outcome.raises PyErr.typeError := by
  unfold verify_signature
  simp [hsw, hkid, halg, hks, hsig, hdec, compare_digest]

/-! ### Claim theorems -/

/-- Claim C1 (code bug): the request `reqValid` is correctly signed — its
`signature` parameter base64-decodes to exactly the HMAC digest of the
canonical string under the configured key — yet `verify_signature` does not
return `True`: it raises `TypeError`, because `hmac.compare_digest` receives
the HMAC object instead of its digest bytes. -/
theorem c1_correct_signature_raises_typeerror :
    b64decode sig44 = Except.ok (hm0 "s3cr3t" (buildSigString reqValid)) ∧
    node_sig_key cfgOK = Except.ok "s3cr3t" ∧
    verify_signature hm0 "node1" cfgOK reqValid = Outcome.raises PyErr.typeError :=
  ⟨rfl, rfl, by decide⟩

/-- Claim C2 (confirmed): for every request, `verify_signature` never
returns `True`; and whenever execution reaches the final comparison (scheme
prefix present, `keyID` equal to the hostname, algorithm `hmac-sha256`, key
resolvable, `signature` present and base64-decodable), the
`hmac.compare_digest` call — whose first argument is the HMAC object
`local_sig_hashed`, never finalized via `.digest()` — raises `TypeError`. -/
theorem c2_compare_gets_hmac_object_never_accepts
    (hm : String → String → List Nat) (hostname : String)
    (cfg : IniData) (r : Request) :
    verify_signature hm hostname cfg r ≠ Outcome.accept ∧
    (∀ (key s : String) (bs : List Nat),
      pyStartsWith (requestSigOf r) "Signature" = true →
      dictGet (sigElementsOf r) "keyID" = some hostname →
      dictGet (sigElementsOf r) "algorithm" = some "hmac-sha256" →
      node_sig_key cfg = Except.ok key →
      dictGet (sigElementsOf r) "signature" = some s →
      b64decode s = Except.ok bs →
      verify_signature hm hostname cfg r = Outcome.raises PyErr.typeError) :=
  ⟨verify_ne_accept hm hostname cfg r,
   fun key s bs h1 h2 h3 h4 h5 h6 =>
     verify_reaches_compare hm hostname cfg r key s bs h1 h2 h3 h4 h5 h6⟩

/-- Witness for C2 at a concrete request that reaches the comparison. -/
theorem c2_compare_gets_hmac_object_never_accepts_witness :
    verify_signature hm0 "node1" cfgOK reqAAAA = Outcome.raises PyErr.typeError ∧
    verify_signature hm0 "node1" cfgOK reqAAAA ≠ Outcome.accept :=
  ⟨(c2_compare_gets_hmac_object_never_accepts hm0 "node1" cfgOK reqAAAA).2
      "s3cr3t" "AAAA" [0, 0, 0] (by decide) (by decide) (by decide) rfl (by decide) rfl,
   (c2_compare_gets_hmac_object_never_accepts hm0 "node1" cfgOK reqAAAA).1⟩

/-- Claim C3 (code bug): absence of `keyID` or of `algorithm` is indeed a
clean rejection, but with valid `keyID` and `algorithm` and no `signature`
parameter, `verify_signature` raises `KeyError` at
`sig_elements['signature']` instead of returning `False`. -/
theorem c3_missing_signature_param_raises_keyerror :
    verify_signature hm0 "node1" cfgOK reqNoKeyID = Outcome.reject Reason.badKeyID ∧
    verify_signature hm0 "node1" cfgOK reqNoAlgorithm = Outcome.reject Reason.badAlgorithm ∧
    verify_signature hm0 "node1" cfgOK reqNoSigParam = Outcome.raises PyErr.keyError := by
  refine ⟨by decide, by decide, by decide⟩

/-- Claim C4 (code bug): with a `signature` parameter that is not valid
base64, `b64decode` raises `binascii.Error` and `verify_signature` lets it
propagate instead of returning a rejection. -/
theorem c4_bad_base64_raises_binascii_error :
    b64decode "a" = Except.error () ∧
    verify_signature hm0 "node1" cfgOK reqBadB64 = Outcome.raises PyErr.binasciiError :=
  ⟨rfl, by decide⟩

/-- Counterexample to claim C6: `authNoSep` starts with `Signature` but not
with `Signature` followed by a separator (its tenth character is `Z`), yet
the code does not reject it with `not_http_signature`: it proceeds through
all later steps (here all the way to the `TypeError` at the comparison). -/
theorem c6_counterexample :
    pyStartsWith authNoSep "Signature" = true ∧
    pyStartsWith authNoSep "Signature " = false ∧
    verify_signature hm0 "node1" cfgOK reqNoSep = Outcome.raises PyErr.typeError ∧
    verify_signature hm0 "node1" cfgOK reqNoSep ≠ Outcome.reject Reason.notHttpSignature := by
  refine ⟨by decide, by decide, by decide, by decide⟩

/-- Claim C6 as amended: `verify_signature` rejects with
`not_http_signature` exactly when the `Authorization` value (defaulting to
the empty string when the header is missing) does not start with the bare
literal `Signature` — no separator after it is required; when the value
does start with `Signature`, whatever its tenth character, the code
proceeds to the later steps and never returns this rejection. -/
theorem c6_scheme_separator_amended (hm : String → String → List Nat)
    (hostname : String) (cfg : IniData) (r : Request) :
    (pyStartsWith (requestSigOf r) "Signature" = false →
      verify_signature hm hostname cfg r = Outcome.reject Reason.notHttpSignature) ∧
    (pyStartsWith (requestSigOf r) "Signature" = true →
      verify_signature hm hostname cfg r ≠ Outcome.reject Reason.notHttpSignature) := by
  constructor
  · intro h
    unfold verify_signature
    simp [h]
  · intro h
    unfold verify_signature
    simp only [h]
    repeat' split <;> try simp_all [compare_digest]

/-- Witness for the amended C6, at a request with no `Authorization` header
and at one whose header value starts with `Signature`. -/
theorem c6_scheme_separator_amended_witness :
    verify_signature hm0 "node1" cfgOK reqNoAuth = Outcome.reject Reason.notHttpSignature ∧
    verify_signature hm0 "node1" cfgOK reqValid ≠ Outcome.reject Reason.notHttpSignature :=
  ⟨(c6_scheme_separator_amended hm0 "node1" cfgOK reqNoAuth).1 (by decide),
   (c6_scheme_separator_amended hm0 "node1" cfgOK reqValid).2 (by decide)⟩

/-- Counterexample to claim C7: the element `a=b="v"` has no key of
non-`=` characters followed by `="` (the claim's pattern does not match, so
the claim says it is dropped), yet the code's greedy regex maps it, with
the key `a=b` containing `=`. -/
theorem c7_counterexample :
    matchElement "a=b=\"v\"" = some ("a=b", "v") ∧
    specMatchElement "a=b=\"v\"" = none ∧
    parse_sig_elements ["a=b=\"v\""] = [("a=b", "v")] := by
  refine ⟨by decide, by decide, by decide⟩

/-- Claim C7 as amended: the parser maps exactly those elements matching
`<key>="<value>"` where the key is one or more characters — possibly
containing `=`, since the group is greedy — and the value one or more
characters up to the closing quote (`.` matching any character except a
newline); elements admitting no such decomposition are silently dropped,
and when two matching elements share a key the later element's value is
the one retained by lookup. -/
theorem c7_parser_amended (es : List String) (e : String) :
    (matchElement e = none →
      parse_sig_elements (es ++ [e]) = parse_sig_elements es ∧
      ∀ k v rest : List Char, k ≠ [] → v ≠ [] →
        k.all dotOk = true → v.all dotOk = true →
        e.data ≠ k ++ ('=' :: '"' :: (v ++ '"' :: rest))) ∧
    (∀ k v : String, matchElement e = some (k, v) →
      parse_sig_elements (es ++ [e]) = parse_sig_elements es ++ [(k, v)] ∧
      dictGet (parse_sig_elements (es ++ [e])) k = some v ∧
      k.data ≠ [] ∧ v.data ≠ [] ∧
      ∃ rest : List Char, e.data = k.data ++ ('=' :: '"' :: (v.data ++ '"' :: rest))) := by
  constructor
  · intro hn
    refine ⟨?_, matchElement_eq_none hn⟩
    rw [parse_append_single, hn]
  · intro k v hs
    have hps : parse_sig_elements (es ++ [e]) = parse_sig_elements es ++ [(k, v)] := by
      rw [parse_append_single, hs]
    obtain ⟨hk, hv, _, _, rest, hrest⟩ := matchElement_eq_some hs
    refine ⟨hps, ?_, hk, hv, rest, hrest⟩
    rw [hps]
    exact dictGet_append_last _ k v

/-- Witness for the amended C7: a non-matching element is dropped, and a
matching element's value is the one retained by lookup. -/
theorem c7_parser_amended_witness :
    parse_sig_elements (["x=\"1\""] ++ ["junk"]) = parse_sig_elements ["x=\"1\""] ∧
    dictGet (parse_sig_elements (["keyID=\"b\""] ++ ["keyID=\"a\""])) "keyID" = some "a" :=
  ⟨((c7_parser_amended ["x=\"1\""] "junk").1 (by decide)).1,
   ((c7_parser_amended ["keyID=\"b\""] "keyID=\"a\"").2 "keyID" "a" (by decide)).2.1⟩

/-- Claim C8 (confirmed): the canonical string the code feeds to the HMAC
equals exactly the spec's format — `(request-target) ` + lower-cased
method + space + path, newline, `host: ` + Host (empty if absent),
newline, `date: ` + Date (empty if absent) — and `verify_signature`
behaves as if the HMAC were computed over precisely that string; absence
of Host or Date causes no rejection at this stage. -/
theorem c8_canonical_string (hm : String → String → List Nat)
    (hostname : String) (cfg : IniData) (r : Request) :
    buildSigString r =
      specCanonicalString r.method r.path
        (List.lookup "Host" r.headers) (List.lookup "Date" r.headers) ∧
    verify_signature hm hostname cfg r =
      verify_signature
        (fun key _ => hm key
          (specCanonicalString r.method r.path
            (List.lookup "Host" r.headers) (List.lookup "Date" r.headers)))
        hostname cfg r :=
  ⟨rfl, rfl⟩

/-- Claim C9 (code bug): on a filesystem where the static config file is
readable and declares `[local] config_file` textually equal to the static
path, the code still takes the second-read branch (a `str` never equals
the fallback `Path` under Python `==`), and the second read itself raises
`TypeError`, because `ConfigParser.read` has no `default_section` keyword
parameter — no merging second read ever happens. -/
theorem c9_second_read_raises_typeerror :
    (fsSameLocation staticConfigFile).map
        (fun f => List.lookup "config_file" f.defaults) =
      some (some staticConfigFile) ∧
    PhysaCIConfig_init fsSameLocation (fun p => p) = Except.error PyErr.typeError :=
  ⟨rfl, rfl⟩

/-- Claim C10 (code bug): when no config file is readable, loading succeeds
with an empty configuration, and a verification attempt on a well-formed
signed request then fails the key lookup with `NoSectionError` — an
exception propagating out of `verify_signature`, not a returned `False`
rejection — and in particular is never an acceptance. -/
theorem c10_missing_key_raises_not_rejects :
    PhysaCIConfig_init fsUnreadable (fun p => p) = Except.ok emptyIni ∧
    node_sig_key emptyIni = Except.error PyErr.noSectionError ∧
    verify_signature hm0 "node1" emptyIni reqAAAA = Outcome.raises PyErr.noSectionError ∧
    verify_signature hm0 "node1" emptyIni reqAAAA ≠ Outcome.accept :=
  ⟨rfl, rfl, by decide, by decide⟩

end NodeServer
